import Mathlib

/-!
Shallow embedding of the audio-transcription ingestion pipeline of
`backend/transcription_manager.py` together with the size pre-check of
`backend/whisper_client.py`.  Text is modelled as a list of characters
(Unicode code points), which matches Python string indexing, slicing and
length semantics.
-/

/-- Characters Python treats as whitespace in `str.strip()` and in the
regex class of `_normalize_text` (ASCII whitespace plus NEL, NBSP and the
ideographic space; other exotic Unicode whitespace does not occur in the
texts this development evaluates). -/
def isWS (c : Char) : Bool :=
  c == ' ' || c == '\t' || c == '\n' || c == '\r' ||
  c == '\x0b' || c == '\x0c' || c == '\u0085' || c == ' ' || c == '　'

/-- Text of the program, as a list of code points. -/
abbrev Txt := List Char

/-- Python `str.lstrip()`. -/
def lstrip (t : Txt) : Txt := t.dropWhile isWS

/-- Python `str.rstrip()`. -/
def rstrip (t : Txt) : Txt := (t.reverse.dropWhile isWS).reverse

/-- Python `str.strip()`. -/
def strip (t : Txt) : Txt := rstrip (lstrip t)

/-- The `BASE_PROMPT` constant of `transcription_manager.py`. -/
def BASE_PROMPT : Txt := "これは日本語の会話です。インタビューを行っています。".data

/-- The whole-string alternatives of `AIZUCHI_PATTERN`
(the anchored regex alternation of line 21 of `transcription_manager.py`). -/
def AIZUCHI_WORDS : List Txt :=
  [ "はい", "ええ", "うん", "あ", "ああ", "なるほど", "そうですね",
    "ですね", "なんか", "ま", "まぁ", "あの", "その", "えっと"].map (·.data)

/-- First stock hallucination phrase filtered at line 142. -/
def HALLU_A : Txt := "ご視聴ありがとうございました".data

/-- Second stock hallucination phrase filtered at line 142. -/
def HALLU_B : Txt := "チャンネル登録".data

/-- Python substring test (`needle in hay`). -/
def hasSub (needle : Txt) : Txt → Bool
  | [] => needle.isEmpty
  | c :: rest => needle.isPrefixOf (c :: rest) || hasSub needle rest

/-- Embedding of `TranscriptionManager._filter_transcription` (lines 109-146):
`none` models the Python `None` return; `some cleaned` is the cleaned text
(possibly empty, in which case the caller also treats it as a rejection). -/
def filter_transcription (text : Txt) : Option Txt :=
  if text = [] then none
  else
    let cleaned := strip text
    if cleaned = BASE_PROMPT then none
    else if cleaned ∈ AIZUCHI_WORDS then none
    else if 5 < cleaned.length ∧ cleaned.dedup.length = 1 then none
    else if 10 < cleaned.length ∧
        cleaned.take (cleaned.length / 2) = cleaned.drop (cleaned.length / 2) then none
    else if hasSub HALLU_A cleaned || hasSub HALLU_B cleaned then none
    else some cleaned

/-- Embedding of `TranscriptionManager._normalize_text`
(remove every whitespace run, then `strip` and lowercase; `Char.toLower`
lowers ASCII letters only, which agrees with Python on the texts of this
program). -/
def normalize_text (t : Txt) : Txt :=
  (strip (t.filter (fun c => !isWS c))).map Char.toLower

/-- Per-session reconciliation state of `TranscriptionManager`
(`_last_total_text`, `_last_sent_text`, `_recent_texts`); `none` models a
missing dictionary entry.  Values actually stored by the program are
non-empty, but the model does not assume it. -/
structure SessionState where
  lastTotal : Option Txt
  lastSent : Option Txt
  recent : List Txt
deriving DecidableEq

/-- Outcome of one successful-transcription evaluation inside
`__process_chunk_locked`, one constructor per early-return path. -/
inductive Outcome where
  | silence
  | noChange
  | dupLastSent
  | emptyKey
  | dupRecent10
  | dupRecent3
  | filteredOut
  | storeRejected
  | accepted (t : Txt)
deriving DecidableEq

/-- Result of the cumulative-diff step. -/
inductive DiffResult where
  | increment (t : Txt)
  | noChangeD
deriving DecidableEq

/-- Embedding of the cumulative-diff step of `__process_chunk_locked`
(lines 299-304): `prevTotal` is `_last_total_text.get(session_id)` and
`normalized` the stripped transcription.  A `prevTotal` of `some []` is
falsy in Python, hence the explicit non-emptiness tests. -/
def computeDiff (prevTotal : Option Txt) (normalized : Txt) : DiffResult :=
  let prevT := prevTotal.getD []
  if prevT ≠ [] ∧ prevT.length < normalized.length ∧ prevT.isPrefixOf normalized then
    DiffResult.increment (lstrip (normalized.drop prevT.length))
  else if prevT ≠ [] ∧ normalized = prevT then DiffResult.noChangeD
  else DiffResult.increment normalized

/-- Python `recent_list[-3:]`. -/
def last3 (l : List Txt) : List Txt := l.drop (l.length - 3)

/-- Append to the dedup ring, then `del recent_list[0]` once the length
exceeds 10. -/
def push10 (l : List Txt) (k : Txt) : List Txt :=
  let l2 := l ++ [k]
  if 10 < l2.length then l2.tail else l2

/-- Continuation of `__process_chunk_locked` after the diff step, applied to
the computed increment `newText` (lines 306-361).  `storeAccepts` models
whether `session_manager.add_transcription_text` returns an utterance. -/
def afterDiff (storeAccepts : Bool) (st : SessionState) (normalized newText : Txt) :
    SessionState × Outcome :=
  let lastS := st.lastSent.getD []
  if lastS ≠ [] ∧ lastS = strip newText then
    ({ st with lastTotal := some normalized }, Outcome.dupLastSent)
  else
    let normKey := normalize_text newText
    if normKey = [] then ({ st with lastTotal := some normalized }, Outcome.emptyKey)
    else if normKey ∈ st.recent then
      ({ st with lastTotal := some normalized }, Outcome.dupRecent10)
    else if normKey ∈ last3 st.recent then
      ({ st with lastTotal := some normalized }, Outcome.dupRecent3)
    else
      match filter_transcription newText with
      | none => ({ st with lastTotal := some normalized }, Outcome.filteredOut)
      | some ft =>
        if ft = [] then ({ st with lastTotal := some normalized }, Outcome.filteredOut)
        else if storeAccepts then
          ({ lastTotal := some normalized, lastSent := some (strip ft),
             recent := push10 st.recent normKey }, Outcome.accepted ft)
        else ({ st with lastTotal := some normalized }, Outcome.storeRejected)

/-- Embedding of `__process_chunk_locked` from the provider result onward
(lines 283-361), for a provider call that returned `transcription`
(the empty list models both Python `None` and `""`, which `if not
transcription` treats alike). -/
def processResult (storeAccepts : Bool) (st : SessionState) (transcription : Txt) :
    SessionState × Outcome :=
  if transcription = [] then (st, Outcome.silence)
  else
    let normalized := strip transcription
    if normalized = [] then (st, Outcome.silence)
    else
      match computeDiff st.lastTotal normalized with
      | DiffResult.noChangeD => (st, Outcome.noChange)
      | DiffResult.increment newText => afterDiff storeAccepts st normalized newText

/-- Whether an outcome appended a new increment. -/
def isAccepted : Outcome → Bool
  | Outcome.accepted _ => true
  | _ => false

/-- Whether an outcome is the recent-3 duplicate rejection. -/
def isDupRecent3 : Outcome → Bool
  | Outcome.dupRecent3 => true
  | _ => false

/-- Embedding of the `AudioChunk` dataclass.  Delays are whole seconds: the
Python default `base_delay` is the float `1.0` and every delay the program
computes from it is an exact power of two. -/
structure AudioChunk where
  base64_data : Txt
  mime_type : Txt
  speaker_id : Txt
  speaker_name : Txt
  retries : Nat
  max_retries : Nat
deriving DecidableEq

/-- Embedding of `AudioChunk.backoff_delay`
(`base_delay * (2 ** max(0, self.retries - 1))`; `Nat` subtraction already
truncates at zero exactly like `max(0, ...)` does on Python ints). -/
def AudioChunk.backoff_delay (c : AudioChunk) (base_delay : Nat) : Nat :=
  base_delay * 2 ^ (max 0 (c.retries - 1))

/-- Failure branch of `__process_chunk_locked` (lines 259-281): increment the
retry counter, then requeue with the backoff delay while
`retries <= max_retries`, otherwise abandon the chunk (`none`). -/
def failStep (c : AudioChunk) : Option (Nat × AudioChunk) :=
  let c2 : AudioChunk := { c with retries := c.retries + 1 }
  if c2.retries ≤ c2.max_retries then some (c2.backoff_delay 1, c2) else none

/-- Result of one provider call for a chunk. -/
inductive ProviderOutcome where
  | failure
  | success (t : Txt)
deriving DecidableEq

/-- Result of one full `__process_chunk_locked` call. -/
inductive StepResult where
  | requeued (delay : Nat) (c : AudioChunk)
  | abandonedR
  | done (o : Outcome)
deriving DecidableEq

/-- One full `__process_chunk_locked` call: a raised provider exception only
touches the chunk's retry counter; a returned result runs the
reconcile-filter-store path. -/
def process_chunk_locked (storeAccepts : Bool) (st : SessionState) (c : AudioChunk) :
    ProviderOutcome → SessionState × StepResult
  | ProviderOutcome.failure =>
    match failStep c with
    | some (d, c2) => (st, StepResult.requeued d c2)
    | none => (st, StepResult.abandonedR)
  | ProviderOutcome.success t =>
    let r := processResult storeAccepts st t
    (r.1, StepResult.done r.2)

/-- Final fate of a chunk after a sequence of attempts. -/
inductive ChunkFate where
  | reconciled
  | abandonedChunk
  | stillQueued
deriving DecidableEq

/-- Successive provider attempts for one chunk (`true` = the provider call
succeeds): returns the backoff delays of the requeues the chunk undergoes
and its fate. -/
def runChunk (c : AudioChunk) : List Bool → List Nat × ChunkFate
  | [] => ([], ChunkFate.stillQueued)
  | ok :: rest =>
    if ok then ([], ChunkFate.reconciled)
    else
      match failStep c with
      | some (d, c2) =>
        let p := runChunk c2 rest
        (d :: p.1, p.2)
      | none => ([], ChunkFate.abandonedChunk)

/-- asyncio.Queue fullness: full iff `maxsize > 0` and the size reached it. -/
def queueFull (maxSize : Nat) (q : List AudioChunk) : Bool :=
  decide (0 < maxSize ∧ maxSize ≤ q.length)

/-- The put of `enqueue_audio_chunk` (lines 181-190): non-blocking put; on a
full queue drop the oldest element, then put the new chunk. -/
def put_drop_oldest (maxSize : Nat) (q : List AudioChunk) (c : AudioChunk) :
    List AudioChunk :=
  if queueFull maxSize q then
    match q with
    | [] => q
    | _ :: rest => rest ++ [c]
  else q ++ [c]

/-- Embedding of `enqueue_audio_chunk` (lines 153-190): with the whisper
client disabled the chunk is ignored; otherwise it is queued with the
drop-oldest policy.  No property of the chunk — in particular not its
decoded size — is inspected. -/
def enqueue_audio_chunk (enabled : Bool) (maxSize : Nat) (q : List AudioChunk)
    (c : AudioChunk) : List AudioChunk :=
  if enabled then put_drop_oldest maxSize q c else q

/-- Embedding of `_requeue_chunk` (lines 192-209): non-blocking put; on a
full queue the retried chunk itself is dropped and the queue is left
unchanged. -/
def requeue_chunk (maxSize : Nat) (q : List AudioChunk) (c : AudioChunk) :
    List AudioChunk :=
  if queueFull maxSize q then q else q ++ [c]

/-- Embedding of the guard chain of `whisper_client.transcribe_audio_chunk`
(through line 119): `true` iff the provider call is reached.  `decoded` is
the base64-decode of the chunk (`none` models a decode failure), bytes as
naturals. -/
def transcribe_precheck (enabled : Bool) (audio_base64 : Txt)
    (decoded : Option (List Nat)) : Bool :=
  if !enabled then false
  else if audio_base64 = [] then false
  else
    match decoded with
    | none => false
    | some bs => if bs = [] then false else if bs.length < 4000 then false else true

/-- Concrete chunk with a base64 payload of length `n + 1`, fresh retry
counters and the default `max_retries` of 3. -/
def mkChunk (n : Nat) : AudioChunk :=
  { base64_data := List.replicate (n + 1) 'a', mime_type := "audio/webm".data,
    speaker_id := "s1".data, speaker_name := "s1".data,
    retries := 0, max_retries := 3 }

/-- A concrete queue holding 30 pairwise distinct chunks. -/
def fullQ30 : List AudioChunk := (List.range 30).map mkChunk

/-- A concrete chunk whose base64 payload decodes to the 5 bytes of
`small`, far below the 4000-byte threshold. -/
def smallChunk : AudioChunk :=
  { base64_data := "c21hbGw=".data, mime_type := "audio/webm".data,
    speaker_id := "s1".data, speaker_name := "s1".data,
    retries := 0, max_retries := 3 }

theorem strip_nil : strip [] = [] := rfl

theorem afterDiff_lastTotal (b : Bool) (st : SessionState) (n t : Txt) :
    ((afterDiff b st n t).1).lastTotal = some n := by
  unfold afterDiff
  dsimp only
  split
  · rfl
  split
  · rfl
  split
  · rfl
  split
  · rfl
  split
  · rfl
  split
  · rfl
  split
  · rfl
  · rfl

theorem processResult_lastTotal (b : Bool) (st : SessionState) (t : Txt)
    (h : strip t ≠ []) :
    ((processResult b st t).1).lastTotal = some (strip t) := by
  have ht : ¬ t = [] := by
    intro h0
    exact h (h0 ▸ strip_nil)
  unfold processResult
  rw [if_neg ht]
  dsimp only
  rw [if_neg h]
  cases hcd : computeDiff st.lastTotal (strip t) with
  | noChangeD =>
    unfold computeDiff at hcd
    dsimp only at hcd
    split at hcd
    · exact absurd hcd (by simp)
    split at hcd
    · rename_i hcond
      cases hlt : st.lastTotal with
      | none => rw [hlt] at hcond; simp at hcond
      | some p =>
        rw [hlt] at hcond
        simp only [Option.getD_some] at hcond
        simp [hlt, hcond.2]
    · exact absurd hcd (by simp)
  | increment nt => exact afterDiff_lastTotal b st (strip t) nt

/-- C1: when the cumulative text `C` is present and the (stripped, as the
worker always strips the provider result before diffing) transcription `T`
is a strictly longer literal extension of `C`, the computed increment is
`T` with the `C` prefix removed and then left-trimmed; in particular the
cumulative text おはよう followed by おはようございます yields the
increment ございます, which the full pipeline then accepts. -/
theorem c1_prefix_diff :
    (∀ (C T : Txt), C ≠ [] → strip T = T → C.length < T.length →
      C.isPrefixOf T = true →
      computeDiff (some C) T = DiffResult.increment (lstrip (T.drop C.length))) ∧
    computeDiff (some ("おはよう".data)) ("おはようございます".data) =
      DiffResult.increment ("ございます".data) ∧
    processResult true ⟨some ("おはよう".data), none, []⟩ ("おはようございます".data) =
      (⟨some ("おはようございます".data), some ("ございます".data),
        [normalize_text ("ございます".data)]⟩, Outcome.accepted ("ございます".data)) := by
  refine ⟨?_, by decide, by decide⟩
  intro C T hC _hT hlen hpre
  unfold computeDiff
  dsimp only [Option.getD_some]
  rw [if_pos ⟨hC, hlen, hpre⟩]

/-- Witness for C1 at the concrete prefix extension used by the end-to-end
scenario of the specification. -/
theorem c1_prefix_diff_witness :
    ("こんにちは".data : Txt) ≠ [] ∧
    computeDiff (some ("こんにちは".data)) ("こんにちはお元気ですか".data) =
      DiffResult.increment (lstrip (("こんにちはお元気ですか".data).drop ("こんにちは".data).length)) :=
  ⟨by decide, c1_prefix_diff.1 ("こんにちは".data) ("こんにちはお元気ですか".data)
    (by decide) (by decide) (by decide) (by decide)⟩

/-- C2: after processing any chunk whose provider call succeeds with
non-empty post-strip output, the session's cumulative text equals that
output, on every outcome path. -/
theorem c2_cumulative_baseline (b : Bool) (st : SessionState) (t : Txt)
    (h : strip t ≠ []) :
    ((processResult b st t).1).lastTotal = some (strip t) :=
  processResult_lastTotal b st t h

/-- Witness for C2 at a concrete fresh session and transcription. -/
theorem c2_cumulative_baseline_witness :
    strip ("はい".data) ≠ [] ∧
    ((processResult true ⟨none, none, []⟩ ("はい".data)).1).lastTotal =
      some (strip ("はい".data)) :=
  ⟨by decide, c2_cumulative_baseline true ⟨none, none, []⟩ ("はい".data) (by decide)⟩

/-- C3: delivering the same raw transcription twice in a row yields
`noChange` on the second delivery (the first delivery made it the
cumulative baseline), so at most one increment is accepted across the two
deliveries. -/
theorem c3_idempotent_redelivery (b b2 : Bool) (st : SessionState) (t : Txt)
    (h : strip t ≠ []) :
    (processResult b2 (processResult b st t).1 t).2 = Outcome.noChange ∧
    ((if isAccepted (processResult b st t).2 then 1 else 0) +
      (if isAccepted (processResult b2 (processResult b st t).1 t).2 then 1 else 0) ≤ 1) := by
  have ht : ¬ t = [] := by
    intro h0
    exact h (h0 ▸ strip_nil)
  have hgen : ∀ st1 : SessionState, st1.lastTotal = some (strip t) →
      (processResult b2 st1 t).2 = Outcome.noChange := by
    intro st1 h1
    unfold processResult
    rw [if_neg ht]
    dsimp only
    rw [if_neg h]
    have hcd : computeDiff st1.lastTotal (strip t) = DiffResult.noChangeD := by
      rw [h1]
      unfold computeDiff
      dsimp only [Option.getD_some]
      rw [if_neg (by intro hcon; exact absurd hcon.2.1 (lt_irrefl _)), if_pos ⟨h, rfl⟩]
    rw [hcd]
  have hmain := hgen (processResult b st t).1 (processResult_lastTotal b st t h)
  refine ⟨hmain, ?_⟩
  rw [hmain]
  have h2 : (if isAccepted Outcome.noChange then (1 : Nat) else 0) = 0 := rfl
  rw [h2]
  split <;> omega

/-- Witness for C3 at a concrete fresh session and repeated transcription. -/
theorem c3_idempotent_redelivery_witness :
    strip ("おはよう".data) ≠ [] ∧
    (processResult true (processResult true ⟨none, none, []⟩ ("おはよう".data)).1
      ("おはよう".data)).2 = Outcome.noChange :=
  ⟨by decide, (c3_idempotent_redelivery true true ⟨none, none, []⟩ ("おはよう".data)
    (by decide)).1⟩

/-- C4: a failed chunk whose incremented retry count stays within
`max_retries` is requeued with delay `base_delay * 2 ^ (retries - 1)`
(base 1); a chunk that fails twice then succeeds is requeued exactly twice
with delays 1s then 2s before the third attempt, and a chunk that fails a
fourth time is abandoned without reaching the reconciler. -/
theorem c4_retry_backoff :
    (∀ c : AudioChunk, c.retries + 1 ≤ c.max_retries →
      failStep c = some (1 * 2 ^ (c.retries + 1 - 1), { c with retries := c.retries + 1 })) ∧
    runChunk (mkChunk 0) [false, false, true] = ([1, 2], ChunkFate.reconciled) ∧
    runChunk (mkChunk 0) [false, false, false, false] =
      ([1, 2, 4], ChunkFate.abandonedChunk) := by
  refine ⟨?_, by decide, by decide⟩
  intro c h
  unfold failStep AudioChunk.backoff_delay
  rw [if_pos h]
  simp

/-- Witness for C4 at a fresh chunk with the default `max_retries`. -/
theorem c4_retry_backoff_witness :
    (mkChunk 0).retries + 1 ≤ (mkChunk 0).max_retries ∧
    failStep (mkChunk 0) =
      some (1 * 2 ^ ((mkChunk 0).retries + 1 - 1), { mkChunk 0 with retries := (mkChunk 0).retries + 1 }) :=
  ⟨by decide, c4_retry_backoff.1 (mkChunk 0) (by decide)⟩

/-- C5 counterexample: against a full default-capacity queue, `_requeue_chunk`
leaves the queue unchanged — it drops the retried chunk itself, not the
oldest queued chunk, so requeue does not follow the drop-oldest policy. -/
theorem c5_requeue_counterexample :
    requeue_chunk 30 fullQ30 (mkChunk 30) = fullQ30 ∧
    requeue_chunk 30 fullQ30 (mkChunk 30) ≠ fullQ30.tail ++ [mkChunk 30] := by
  decide

/-- C5 (amended): `enqueue_audio_chunk` against a full 30-capacity queue
drops the oldest chunk and appends the new one (which therefore replaces it
in processing order), while `_requeue_chunk` against a full queue drops the
retried chunk itself and leaves the queue unchanged. -/
theorem c5_drop_oldest_amended :
    (∀ (c0 : AudioChunk) (rest : List AudioChunk) (c : AudioChunk),
      (c0 :: rest).length = 30 →
      enqueue_audio_chunk true 30 (c0 :: rest) c = rest ++ [c]) ∧
    (∀ (c0 : AudioChunk) (rest : List AudioChunk) (c : AudioChunk),
      c0 ∉ rest → c0 ≠ c → c0 ∉ rest ++ [c]) ∧
    (∀ (q : List AudioChunk) (c : AudioChunk), queueFull 30 q = true →
      requeue_chunk 30 q c = q) := by
  refine ⟨?_, ?_, ?_⟩
  · intro c0 rest c hlen
    unfold enqueue_audio_chunk put_drop_oldest queueFull
    rw [if_pos rfl]
    have hfull : decide (0 < 30 ∧ 30 ≤ (c0 :: rest).length) = true := by
      rw [hlen]
      decide
    rw [if_pos hfull]
  · intro c0 rest c h1 h2
    simp only [List.mem_append, List.mem_singleton]
    intro hin
    cases hin with
    | inl hl => exact h1 hl
    | inr hr => exact h2 hr
  · intro q c hfull
    unfold requeue_chunk
    rw [if_pos hfull]

/-- Witness for the amended C5 at a concrete 30-element queue. -/
theorem c5_drop_oldest_amended_witness :
    enqueue_audio_chunk true 30
      (mkChunk 0 :: (List.range 29).map (fun i => mkChunk (i + 1))) (mkChunk 30) =
      ((List.range 29).map (fun i => mkChunk (i + 1))) ++ [mkChunk 30] ∧
    requeue_chunk 30 fullQ30 (mkChunk 31) = fullQ30 :=
  ⟨c5_drop_oldest_amended.1 (mkChunk 0) ((List.range 29).map (fun i => mkChunk (i + 1)))
    (mkChunk 30) (by decide),
   c5_drop_oldest_amended.2.2 fullQ30 (mkChunk 31) (by decide)⟩

/-- C6 counterexample: テストテスト has length 6, so the self-concatenation
detector (which requires length > 10) does not fire and the filter accepts
the text instead of rejecting it. -/
theorem c6_loop_counterexample :
    filter_transcription ("テストテスト".data) = some ("テストテスト".data) := by
  decide

theorem dedup_replicate_pos (n : Nat) (c : Char) (h : 0 < n) :
    (List.replicate n c).dedup = [c] := by
  induction n with
  | zero => exact absurd h (lt_irrefl 0)
  | succ m ih =>
    cases Nat.eq_zero_or_pos m with
    | inl h0 =>
      subst h0
      simp [List.dedup]
    | inr hm =>
      rw [List.replicate_succ, List.dedup_cons_of_mem (by simp [List.mem_replicate]; omega),
        ih hm]

/-- C6 (amended): the filter rejects every stripped increment of length > 5
with all characters identical and every stripped increment of length > 10
whose first half equals its second half; a 6-character single-repeated-
character string is rejected, but テストテスト (length 6, not > 10) passes
the filter. -/
theorem c6_degenerate_repetition_amended :
    (∀ (t : Txt) (c : Char), strip t = t → 5 < t.length →
      t = List.replicate t.length c → filter_transcription t = none) ∧
    (∀ t : Txt, strip t = t → 10 < t.length →
      t.take (t.length / 2) = t.drop (t.length / 2) → filter_transcription t = none) ∧
    filter_transcription (List.replicate 6 'あ') = none ∧
    filter_transcription ("テストテスト".data) = some ("テストテスト".data) := by
  refine ⟨?_, ?_, by decide, by decide⟩
  · intro t c hst h5 hrep
    have ht : ¬ t = [] := by
      intro h0
      rw [h0] at h5
      exact absurd h5 (by decide)
    unfold filter_transcription
    rw [if_neg ht]
    dsimp only
    rw [hst]
    by_cases h1 : t = BASE_PROMPT
    · rw [if_pos h1]
    rw [if_neg h1]
    by_cases h2 : t ∈ AIZUCHI_WORDS
    · rw [if_pos h2]
    rw [if_neg h2]
    have hded : t.dedup = [c] := by
      rw [hrep]
      exact dedup_replicate_pos t.length c (by omega)
    rw [if_pos ⟨h5, by rw [hded]; rfl⟩]
  · intro t hst h10 hhalf
    have ht : ¬ t = [] := by
      intro h0
      rw [h0] at h10
      exact absurd h10 (by decide)
    unfold filter_transcription
    rw [if_neg ht]
    dsimp only
    rw [hst]
    by_cases h1 : t = BASE_PROMPT
    · rw [if_pos h1]
    rw [if_neg h1]
    by_cases h2 : t ∈ AIZUCHI_WORDS
    · rw [if_pos h2]
    rw [if_neg h2]
    by_cases h3 : 5 < t.length ∧ t.dedup.length = 1
    · rw [if_pos h3]
    rw [if_neg h3]
    rw [if_pos ⟨h10, hhalf⟩]

/-- Witness for the amended C6: an 8-long uniform string and a 12-long
self-concatenated string are both rejected. -/
theorem c6_degenerate_repetition_amended_witness :
    filter_transcription (List.replicate 8 'x') = none ∧
    filter_transcription ("あいうえおかあいうえおか".data) = none :=
  ⟨c6_degenerate_repetition_amended.1 (List.replicate 8 'x') 'x' (by decide) (by decide)
    (by decide),
   c6_degenerate_repetition_amended.2.1 ("あいうえおかあいうえおか".data) (by decide)
    (by decide) (by decide)⟩

/-- C7 counterexample: a chunk whose payload decodes to 5 bytes (far below
the 4000-byte threshold) is nevertheless placed on the conversation queue —
`enqueue_audio_chunk` performs no size check; the size gate only runs
inside the whisper client, after dequeue. -/
theorem c7_enqueue_counterexample :
    enqueue_audio_chunk true 30 [] smallChunk = [smallChunk] ∧
    transcribe_precheck true smallChunk.base64_data (some [115, 109, 97, 108, 108]) = false := by
  decide

/-- C7 (amended): enqueueing never inspects the chunk size — every chunk is
queued with the drop-oldest policy — and the whisper client discards chunks
whose decoded length is below 4000 bytes at transcription time, returning
before the provider call. -/
theorem c7_minsize_amended :
    (∀ (maxSize : Nat) (q : List AudioChunk) (c : AudioChunk),
      enqueue_audio_chunk true maxSize q c = put_drop_oldest maxSize q c) ∧
    (∀ (b64 : Txt) (bs : List Nat), b64 ≠ [] → bs ≠ [] → bs.length < 4000 →
      transcribe_precheck true b64 (some bs) = false) := by
  refine ⟨?_, ?_⟩
  · intro maxSize q c
    unfold enqueue_audio_chunk
    rw [if_pos rfl]
  · intro b64 bs hb hbs hlen
    unfold transcribe_precheck
    dsimp only
    rw [if_neg hb, if_neg hbs, if_pos hlen]
    decide

/-- Witness for the amended C7 at the concrete small chunk. -/
theorem c7_minsize_amended_witness :
    enqueue_audio_chunk true 30 [] smallChunk = put_drop_oldest 30 [] smallChunk ∧
    transcribe_precheck true ("c21hbGw=".data) (some [115, 109, 97, 108, 108]) = false :=
  ⟨c7_minsize_amended.1 30 [] smallChunk,
   c7_minsize_amended.2 ("c21hbGw=".data) [115, 109, 97, 108, 108]
    (by decide) (by decide) (by decide)⟩

/-- C8: an increment whose trimmed form exactly equals one of the fixed
acknowledgement words is rejected; はい alone is rejected while
はい、そうですね — which merely contains filler tokens — is accepted. -/
theorem c8_filler_whole_string :
    (∀ t : Txt, strip t ∈ AIZUCHI_WORDS → filter_transcription t = none) ∧
    filter_transcription ("はい".data) = none ∧
    filter_transcription ("はい、そうですね".data) = some ("はい、そうですね".data) := by
  refine ⟨?_, by decide, by decide⟩
  intro t hmem
  have ht : ¬ t = [] := by
    intro h0
    rw [h0, strip_nil] at hmem
    exact absurd hmem (by decide)
  unfold filter_transcription
  rw [if_neg ht]
  dsimp only
  by_cases h1 : strip t = BASE_PROMPT
  · rw [if_pos h1]
  rw [if_neg h1]
  rw [if_pos hmem]

/-- Witness for C8 at a bare filler word. -/
theorem c8_filler_whole_string_witness :
    strip ("ええ".data) ∈ AIZUCHI_WORDS ∧ filter_transcription ("ええ".data) = none :=
  ⟨by decide, c8_filler_whole_string.1 ("ええ".data) (by decide)⟩

/-- C9: a provider failure leaves the whole reconciliation state untouched —
the step returns the state unchanged — and its only effect is on the chunk
itself: the retry counter grows by exactly one and the chunk is either
requeued with the corresponding backoff delay or abandoned. -/
theorem c9_failure_atomicity (b : Bool) (st : SessionState) (c : AudioChunk) :
    process_chunk_locked b st c ProviderOutcome.failure =
      (st, if c.retries + 1 ≤ c.max_retries then
        StepResult.requeued (1 * 2 ^ (max 0 (c.retries + 1 - 1))) { c with retries := c.retries + 1 }
      else StepResult.abandonedR) := by
  unfold process_chunk_locked failStep AudioChunk.backoff_delay
  by_cases h : c.retries + 1 ≤ c.max_retries
  · rw [if_pos h, if_pos h]
  · rw [if_neg h, if_neg h]

theorem mem_of_mem_last3 {a : Txt} {l : List Txt} (h : a ∈ last3 l) : a ∈ l := by
  unfold last3 at h
  exact List.mem_of_mem_drop h

theorem afterDiff_no_dupRecent3 (b : Bool) (st : SessionState) (n t : Txt) :
    isDupRecent3 (afterDiff b st n t).2 = false := by
  unfold afterDiff
  dsimp only
  split
  · rfl
  split
  · rfl
  split
  · rfl
  split
  · rename_i h10 h3
    exact absurd (mem_of_mem_last3 h3) h10
  split
  · rfl
  split
  · rfl
  split
  · rfl
  · rfl

/-- C10: the exact-match check against the 3 most recent ring entries never
rejects anything on its own: because the ring stores normalized keys and
membership in the whole 10-entry ring is tested first, the recent-3 outcome
is unreachable for every state and every transcription. -/
theorem c10_recent3_redundant (b : Bool) (st : SessionState) (t : Txt) :
    isDupRecent3 (processResult b st t).2 = false := by
  unfold processResult
  dsimp only
  split
  · rfl
  split
  · rfl
  split
  · rfl
  · exact afterDiff_no_dupRecent3 b st (strip t) _
